import Mathlib

/-!
Verification of the AIOps remediation pipeline: the risk policy, the
remediation dispatcher, the plan enricher (from `function_app/__init__.py`,
function `_maybe_remediate` and the enrichment block of `main`), and the
action-guard whitelist (from `remediation/__init__.py`, function `main`).
The Python dictionaries are embedded as typed structures following the
data model; the HTTP call made by the dispatcher is abstracted as a pure
oracle indexed by the call position.
-/

namespace AIOps

/-- Flat JSON-compatible values used for opaque `params` payloads. -/
inductive JValue where
  | jstr : String → JValue
  | jnum : Int → JValue
  | jbool : Bool → JValue
  | jnull : JValue
deriving DecidableEq, Repr

/-- Parameter mappings are opaque key-value pairs, passed through verbatim. -/
abbrev Params := List (String × JValue)

/-- One proposed remediation step: `{"name": ..., "params": ..., "risk": ...}`.
The `risk` tag may be absent (`act.get("risk")` returning `None`). -/
structure Action where
  name : String
  params : Params
  risk : Option String
deriving DecidableEq, Repr

/-- Evidence block of a plan (`kql_name`, `kql_snippet`, `links`). -/
structure Evidence where
  kql_name : Option String
  kql_snippet : Option String
  links : List String
deriving DecidableEq, Repr

/-- An analysis plan as produced by the plan generator:
`{"rca_summary", "confidence", "actions", "evidence"}`. -/
structure Plan where
  rca_summary : String
  confidence : ℚ
  actions : List Action
  evidence : Evidence
deriving DecidableEq, Repr

/-- Embedding of Python `str.lower()`: lowercase every character. -/
def lowerStr (s : String) : String :=
  ⟨s.data.map Char.toLower⟩

/-- Embedding of `(act.get("risk") or "").lower()` from
`_maybe_remediate` (line 211): a missing tag becomes the empty string and
the tag is normalized to lowercase. -/
def normRisk (risk : Option String) : String :=
  lowerStr (risk.getD "")

/-- The two outcomes of the risk policy. -/
inductive Classification where
  | AutoExecute
  | RequireApproval
deriving DecidableEq, Repr

/-- The risk policy applied by `_maybe_remediate` (line 212): the
normalized risk tag is auto-executable exactly when it is `low` or
`medium`. -/
def classify (a : Action) : Classification :=
  if normRisk a.risk = "low" ∨ normRisk a.risk = "medium" then
    Classification.AutoExecute
  else
    Classification.RequireApproval

/-- Status field of a dispatch outcome: `resp.status_code` (a number) on a
completed POST, the string `"error"` on a raised exception, the string
`"skipped"` otherwise. -/
inductive OutcomeStatus where
  | code : Nat → OutcomeStatus
  | error : OutcomeStatus
  | skipped : OutcomeStatus
deriving DecidableEq, Repr

/-- One entry of the `results` list built by `_maybe_remediate`: the
executed and error branches fill `response`, the skipped branch fills
`reason`. -/
structure Outcome where
  action : String
  status : OutcomeStatus
  response : Option String
  reason : Option String
deriving DecidableEq, Repr

/-- Result of one `requests.post` call to the executor: either a response
with a status code and a body text, or a raised transport exception with
its message. -/
inductive ExecResult where
  | success : Nat → String → ExecResult
  | failure : String → ExecResult
deriving DecidableEq, Repr

/-- Embedding of the slice `resp.text[:300]` (line 222): the first 300
characters of the text. -/
def truncate (s : String) : String :=
  ⟨s.data.take 300⟩

/-- Body of the loop of `_maybe_remediate` (lines 208-235) for one action:
if the lowered risk is `low` or `medium` and the endpoint is non-empty,
POST `{"action": name, "params": params}` and record the status code and
truncated body, or `"error"` with the exception message; otherwise record
`"skipped"` with the combined reason string. -/
def dispatchAction (act : Action) (url : String)
    (call : String × Params → ExecResult) : Outcome :=
  if (normRisk act.risk = "low" ∨ normRisk act.risk = "medium") ∧ url ≠ "" then
    match call (act.name, act.params) with
    | ExecResult.success code text =>
        { action := act.name, status := OutcomeStatus.code code,
          response := some (truncate text), reason := none }
    | ExecResult.failure msg =>
        { action := act.name, status := OutcomeStatus.error,
          response := some msg, reason := none }
  else
    { action := act.name, status := OutcomeStatus.skipped,
      response := none,
      reason := some "risk too high or remediation endpoint missing" }

/-- The loop of `_maybe_remediate` over a list of actions, keeping track of
the call position so each POST may answer independently. -/
def dispatchFrom (i : Nat) (acts : List Action) (url : String)
    (call : Nat → String × Params → ExecResult) : List Outcome :=
  match acts with
  | [] => []
  | a :: rest => dispatchAction a url (call i) :: dispatchFrom (i + 1) rest url call

/-- Embedding of `_maybe_remediate(plan, remediation_url, ...)`
(lines 200-236): one outcome per action of the plan, in order. -/
def maybe_remediate (plan : Plan) (url : String)
    (call : Nat → String × Params → ExecResult) : List Outcome :=
  dispatchFrom 0 plan.actions url call

/-- JSON encoding of an outcome status as it appears when the outcome
record is reused as the `params` of a synthesized action. -/
def outcomeStatusJ : OutcomeStatus → JValue
  | OutcomeStatus.code n => JValue.jnum n
  | OutcomeStatus.error => JValue.jstr "error"
  | OutcomeStatus.skipped => JValue.jstr "skipped"

/-- The full outcome record `r`, used verbatim as the `params` of the
synthesized action (line 392: `"params": r`). -/
def outcomeParams (r : Outcome) : Params :=
  [("action", JValue.jstr r.action), ("status", outcomeStatusJ r.status)]
    ++ (match r.response with
        | some s => [("response", JValue.jstr s)]
        | none => [])
    ++ (match r.reason with
        | some s => [("reason", JValue.jstr s)]
        | none => [])

/-- The pseudo-action synthesized for one dispatch outcome (lines 389-393):
`{"name": "result:" + r["action"], "params": r, "risk": "n/a"}`. -/
def resultAction (r : Outcome) : Action :=
  { name := "result:" ++ r.action, params := outcomeParams r,
    risk := some "n/a" }

/-- The enrichment block of `main` (lines 386-394): when `results` is
non-empty, append one synthesized pseudo-action per outcome to the plan's
actions; otherwise leave the plan untouched. -/
def enrich (plan : Plan) (results : List Outcome) : Plan :=
  if results.isEmpty then plan
  else { plan with actions := plan.actions ++ results.map resultAction }

/-- The whitelist `SAFE_ACTIONS` of `remediation/__init__.py` (line 15). -/
def SAFE_ACTIONS : List String :=
  ["scale_db", "toggle_feature_flag", "restart_service"]

/-- The parsed JSON body of a guard request: `data.get("action")` may be
absent, `data.get("params", {})` defaults to the empty mapping. -/
structure GuardRequest where
  action : Option String
  params : Params
deriving DecidableEq, Repr

/-- Structured result of the guard, carrying the HTTP status code of the
response alongside the JSON payload fields. -/
inductive GuardResult where
  | error : Nat → String → GuardResult
  | denied : Nat → String → List String → GuardResult
  | ok : Nat → String → Params → String → GuardResult
deriving DecidableEq, Repr

/-- Embedding of `remediation/__init__.py` `main` (lines 18-57), with the
whitelist passed explicitly (the source closes over `SAFE_ACTIONS`): an
unparseable body yields `error`/400 `"Invalid JSON."`; a missing, empty,
or non-whitelisted action yields `denied`/403 with the full allowed set;
otherwise `ok`/200 echoing the action and params. -/
def guard (wl : List String) (body : Option GuardRequest) : GuardResult :=
  match body with
  | none => GuardResult.error 400 "Invalid JSON."
  | some data =>
      match data.action with
      | none => GuardResult.denied 403 "unsafe or unknown action" wl
      | some a =>
          if a = "" ∨ a ∉ wl then
            GuardResult.denied 403 "unsafe or unknown action" wl
          else
            GuardResult.ok 200 a data.params "Action executed (simulation)."

/-- Default incident context of the agent entry point (lines 337-348),
parameterized by the formatted current time. -/
structure IncidentCtx where
  title : String
  environment : String
  severity : String
  start_time_local : String
  id : String
  service_name : String
  region : String
  change_ref : String
  dashboard_url : String
  incident_url : String
deriving DecidableEq, Repr

/-- The literal default incident dictionary of `main` (lines 337-348). -/
def defaultIncident (now : String) : IncidentCtx :=
  { title := "Service latency spike", environment := "prod",
    severity := "Sev2", start_time_local := now, id := "INC-XXXXX",
    service_name := "unknown-service", region := "unknown-region",
    change_ref := "unknown-change",
    dashboard_url := "https://portal.azure.com/",
    incident_url := "https://dev.azure.com/" }

/-- The parsed agent request body: optional `question` and optional
`incident` context. -/
structure AgentBody where
  question : Option String
  incident : Option IncidentCtx
deriving DecidableEq, Repr

/-- The empty body `{}` used when parsing fails or the method is not POST. -/
def emptyAgentBody : AgentBody :=
  { question := none, incident := none }

/-- Embedding of lines 326-329 of the agent `main`:
`body = req.get_json() if req.method == "POST" else {}` with any parsing
exception replaced by `{}`. `parsed = none` models an unparseable body. -/
def agentBodyOf (method : String) (parsed : Option AgentBody) : AgentBody :=
  if method = "POST" then parsed.getD emptyAgentBody else emptyAgentBody

/-- The default question of the agent entry point (lines 332-335). -/
def defaultQuestion : String :=
  "Why did latency spike in the last 30 minutes?"

/-- Embedding of `body.get("question", default)` (lines 332-335). -/
def agentQuestion (b : AgentBody) : String :=
  b.question.getD defaultQuestion

/-- Embedding of `body.get("incident", default)` (lines 337-348). -/
def agentIncident (b : AgentBody) (now : String) : IncidentCtx :=
  b.incident.getD (defaultIncident now)

/-! Helper lemmas shared by the claim theorems. -/

lemma classify_auto_iff (a : Action) :
    classify a = Classification.AutoExecute ↔
      (normRisk a.risk = "low" ∨ normRisk a.risk = "medium") := by
  unfold classify
  split
  next h => exact iff_of_true rfl h
  next h => exact iff_of_false (fun hx => nomatch hx) h

lemma classify_req_iff (a : Action) :
    classify a = Classification.RequireApproval ↔
      ¬(normRisk a.risk = "low" ∨ normRisk a.risk = "medium") := by
  unfold classify
  split
  next h => exact iff_of_false (fun hx => nomatch hx) (not_not_intro h)
  next h => exact iff_of_true rfl h

lemma dispatchFrom_length (k : Nat) (acts : List Action) (url : String)
    (call : Nat → String × Params → ExecResult) :
    (dispatchFrom k acts url call).length = acts.length := by
  induction acts generalizing k with
  | nil => rfl
  | cons a rest ih => simp [dispatchFrom, ih]

lemma dispatchFrom_getElem? (k i : Nat) (acts : List Action) (url : String)
    (call : Nat → String × Params → ExecResult) :
    (dispatchFrom k acts url call)[i]? =
      (acts[i]?).map (fun a => dispatchAction a url (call (k + i))) := by
  induction acts generalizing k i with
  | nil => simp [dispatchFrom]
  | cons a rest ih =>
      cases i with
      | zero => simp [dispatchFrom]
      | succ n =>
          have hk : k + 1 + n = k + (n + 1) := by omega
          simp only [dispatchFrom, List.getElem?_cons_succ, ih (k + 1) n, hk]

lemma maybe_remediate_length (plan : Plan) (url : String)
    (call : Nat → String × Params → ExecResult) :
    (maybe_remediate plan url call).length = plan.actions.length :=
  dispatchFrom_length 0 plan.actions url call

lemma maybe_remediate_getElem? (plan : Plan) (url : String)
    (call : Nat → String × Params → ExecResult) (i : Nat) :
    (maybe_remediate plan url call)[i]? =
      (plan.actions[i]?).map (fun a => dispatchAction a url (call i)) := by
  have h := dispatchFrom_getElem? 0 i plan.actions url call
  simpa [maybe_remediate] using h

/-! Claim theorems. -/

/-- C1: the risk tag is normalized to lowercase and an action is classified
`AutoExecute` exactly when the normalized tag is `low` or `medium`; an
absent, empty, or `high` tag (any casing) yields `RequireApproval`, and
classification is total, so it never throws on malformed input. -/
theorem risk_policy_classification (a : Action) :
    (classify a = Classification.AutoExecute ↔
      ∃ s, a.risk = some s ∧ (lowerStr s = "low" ∨ lowerStr s = "medium")) ∧
    (classify a = Classification.AutoExecute ∨
      classify a = Classification.RequireApproval) ∧
    (a.risk = none → classify a = Classification.RequireApproval) ∧
    (a.risk = some "" → classify a = Classification.RequireApproval) ∧
    (∀ s, a.risk = some s → lowerStr s = "high" →
      classify a = Classification.RequireApproval) := by
  refine ⟨?_, ?_, ?_, ?_, ?_⟩
  · rw [classify_auto_iff]
    cases hr : a.risk with
    | none =>
        constructor
        · intro h
          exact absurd h (by decide)
        · rintro ⟨s, hs, _⟩
          cases hs
    | some s =>
        constructor
        · intro h
          refine ⟨s, rfl, ?_⟩
          simpa [normRisk] using h
        · rintro ⟨t, ht, h⟩
          cases ht
          simpa [normRisk] using h
  · unfold classify
    split
    · exact Or.inl rfl
    · exact Or.inr rfl
  · intro h
    rw [classify_req_iff, h]
    decide
  · intro h
    rw [classify_req_iff, h]
    decide
  · intro s hs hlow
    rw [classify_req_iff, hs]
    simp only [normRisk, Option.getD, hlow]
    decide

/-- Witness for C1 at concrete actions: a `Medium` tag auto-executes, a
missing tag and an upper-case `HIGH` tag require approval. -/
theorem risk_policy_classification_witness :
    classify ⟨"scale_db", [], some "Medium"⟩ = Classification.AutoExecute ∧
    classify ⟨"noop", [], none⟩ = Classification.RequireApproval ∧
    classify ⟨"wipe_disk", [], some "HIGH"⟩ = Classification.RequireApproval :=
  ⟨(risk_policy_classification _).1.mpr ⟨"Medium", rfl, by decide⟩,
   (risk_policy_classification _).2.2.1 rfl,
   (risk_policy_classification _).2.2.2.2 "HIGH" rfl (by decide)⟩

/-- C3: enrichment grows the action list by exactly one entry per outcome,
keeps the original actions as an unchanged prefix, carries `rca_summary`,
`confidence` and `evidence` over unchanged, and is the identity on an
empty outcome list. -/
theorem plan_enricher_frame (plan : Plan) (outcomes : List Outcome) :
    (enrich plan outcomes).actions.length
        = plan.actions.length + outcomes.length ∧
    (enrich plan outcomes).actions.take plan.actions.length = plan.actions ∧
    (enrich plan outcomes).rca_summary = plan.rca_summary ∧
    (enrich plan outcomes).confidence = plan.confidence ∧
    (enrich plan outcomes).evidence = plan.evidence ∧
    enrich plan [] = plan := by
  unfold enrich
  cases outcomes with
  | nil => simp
  | cons r rs =>
      refine ⟨by simp, ?_, by simp, by simp, by simp, by simp⟩
      simp

/-- C4: every pseudo-action synthesized by enrichment is named
`result:` + the outcome's action, carries risk `n/a`, is classified
`RequireApproval` by the risk policy, and is skipped (never auto-executed)
by a second pass of the dispatch loop. -/
theorem enrichment_reentrancy_guard :
    (∀ (plan : Plan) (rs : List Outcome),
        (enrich plan rs).actions.drop plan.actions.length
          = rs.map resultAction) ∧
    (∀ r : Outcome,
        (resultAction r).name = "result:" ++ r.action ∧
        (resultAction r).risk = some "n/a" ∧
        classify (resultAction r) = Classification.RequireApproval) ∧
    (∀ (r : Outcome) (url : String) (c : String × Params → ExecResult),
        (dispatchAction (resultAction r) url c).status
          = OutcomeStatus.skipped) := by
  refine ⟨?_, ?_, ?_⟩
  · intro plan rs
    unfold enrich
    cases rs with
    | nil => simp
    | cons r rest =>
        simp
  · intro r
    refine ⟨rfl, rfl, ?_⟩
    rw [classify_req_iff]
    have hrisk : (resultAction r).risk = some "n/a" := rfl
    rw [hrisk]
    decide
  · intro r url c
    unfold dispatchAction
    rw [if_neg]
    rintro ⟨h1, -⟩
    have hrisk : (resultAction r).risk = some "n/a" := rfl
    rw [hrisk] at h1
    exact absurd h1 (by decide)

/-- C2: with a parseable body, a missing, empty, or non-whitelisted action
is denied with HTTP 403 and the full whitelist disclosed (which equals, as
a set, the three reference actions); a whitelisted action is accepted with
HTTP 200, echoing the request's action and params. -/
theorem guard_whitelist_decision (data : GuardRequest) :
    (∀ a, data.action = some a → a ∈ SAFE_ACTIONS →
        guard SAFE_ACTIONS (some data)
          = GuardResult.ok 200 a data.params "Action executed (simulation).") ∧
    ((data.action = none ∨ data.action = some "" ∨
        ∀ a, data.action = some a → a ∉ SAFE_ACTIONS) →
      guard SAFE_ACTIONS (some data)
        = GuardResult.denied 403 "unsafe or unknown action" SAFE_ACTIONS) ∧
    (∀ x, x ∈ SAFE_ACTIONS ↔
        (x = "scale_db" ∨ x = "toggle_feature_flag" ∨ x = "restart_service")) := by
  obtain ⟨oa, ps⟩ := data
  have hguard : ∀ a : String,
      guard SAFE_ACTIONS (some ⟨some a, ps⟩)
        = if a = "" ∨ a ∉ SAFE_ACTIONS then
            GuardResult.denied 403 "unsafe or unknown action" SAFE_ACTIONS
          else
            GuardResult.ok 200 a ps "Action executed (simulation)." :=
    fun _ => rfl
  refine ⟨?_, ?_, ?_⟩
  · intro a ha hmem
    simp only at ha
    subst ha
    have hne : a ≠ "" := by
      rintro rfl
      revert hmem
      decide
    rw [hguard a, if_neg (by simp [hne, hmem])]
  · intro h
    rcases h with h | h | h
    · simp only at h
      subst h
      rfl
    · simp only at h
      subst h
      rw [hguard "", if_pos (Or.inl rfl)]
    · cases oa with
      | none => rfl
      | some a => rw [hguard a, if_pos (Or.inr (h a rfl))]
  · intro x
    simp [SAFE_ACTIONS]

/-- Witness for C2: `scale_db` with params is accepted and echoed;
`delete_everything` is denied with the full whitelist disclosed. -/
theorem guard_whitelist_decision_witness :
    guard SAFE_ACTIONS (some ⟨some "scale_db", [("x", JValue.jnum 1)]⟩)
      = GuardResult.ok 200 "scale_db" [("x", JValue.jnum 1)]
          "Action executed (simulation)." ∧
    guard SAFE_ACTIONS (some ⟨some "delete_everything", []⟩)
      = GuardResult.denied 403 "unsafe or unknown action" SAFE_ACTIONS :=
  ⟨(guard_whitelist_decision ⟨some "scale_db", [("x", JValue.jnum 1)]⟩).1
      "scale_db" rfl (by decide),
   (guard_whitelist_decision ⟨some "delete_everything", []⟩).2.1
      (Or.inr (Or.inr (fun a ha => by
        simp only at ha
        cases ha
        decide)))⟩

/-- C8: an unparseable body yields `error` with HTTP 400 and the exact
message `Invalid JSON.`, independently of the whitelist — no whitelist
check takes place. -/
theorem guard_invalid_json :
    ∀ wl : List String, guard wl none = GuardResult.error 400 "Invalid JSON." :=
  fun _ => rfl

/-- The skipped outcome that `_maybe_remediate` records for an action when
it does not POST. -/
def skippedOutcome (a : Action) : Outcome :=
  { action := a.name, status := OutcomeStatus.skipped, response := none,
    reason := some "risk too high or remediation endpoint missing" }

/-- C5: with an empty executor endpoint, dispatch records one outcome per
action, and every outcome — whatever the action's risk tag, including
auto-executable ones — is `skipped` with a reason stating that the
remediation endpoint is missing. -/
theorem dispatch_missing_endpoint (plan : Plan)
    (call : Nat → String × Params → ExecResult) :
    (maybe_remediate plan "" call).length = plan.actions.length ∧
    (∀ (i : Nat) (a : Action), plan.actions[i]? = some a →
      (maybe_remediate plan "" call)[i]? = some (skippedOutcome a) ∧
      (skippedOutcome a).status = OutcomeStatus.skipped ∧
      ∃ r, (skippedOutcome a).reason = some r ∧
        r = "risk too high or " ++ "remediation endpoint missing") := by
  refine ⟨maybe_remediate_length plan "" call, ?_⟩
  intro i a ha
  refine ⟨?_, rfl, "risk too high or remediation endpoint missing", rfl, by decide⟩
  rw [maybe_remediate_getElem? plan "" call i, ha]
  show some (dispatchAction a "" (call i)) = _
  unfold dispatchAction
  rw [if_neg (fun h => h.2 rfl)]
  rfl

/-- Witness for C5: a one-action plan with `low` risk is still skipped with
the endpoint-missing reason when the endpoint is empty. -/
theorem dispatch_missing_endpoint_witness :
    (maybe_remediate
        ⟨"s", 1, [⟨"restart_service", [], some "low"⟩], ⟨none, none, []⟩⟩
        "" (fun _ _ => ExecResult.success 200 "ok"))[0]?
      = some (skippedOutcome ⟨"restart_service", [], some "low"⟩) :=
  ((dispatch_missing_endpoint
      ⟨"s", 1, [⟨"restart_service", [], some "low"⟩], ⟨none, none, []⟩⟩
      (fun _ _ => ExecResult.success 200 "ok")).2
    0 ⟨"restart_service", [], some "low"⟩ rfl).1

/-- C6: dispatch yields exactly one outcome per action, in the original
order; each outcome depends only on that action's own call, so changing
(for example failing) the call at one position leaves every other outcome
unchanged; a failing call on an auto-executable action yields the `error`
outcome for that action. -/
theorem dispatch_failure_isolation (plan : Plan) (url : String)
    (c c' : Nat → String × Params → ExecResult) (j : Nat)
    (hagree : ∀ i, i ≠ j → c i = c' i) :
    (maybe_remediate plan url c).length = plan.actions.length ∧
    (∀ i : Nat, (maybe_remediate plan url c)[i]? =
        (plan.actions[i]?).map (fun a => dispatchAction a url (c i))) ∧
    (∀ i : Nat, i ≠ j →
        (maybe_remediate plan url c)[i]? = (maybe_remediate plan url c')[i]?) ∧
    (∀ (a : Action) (msg : String), url ≠ "" →
        classify a = Classification.AutoExecute →
        c j (a.name, a.params) = ExecResult.failure msg →
        dispatchAction a url (c j) =
          { action := a.name, status := OutcomeStatus.error,
            response := some msg, reason := none }) := by
  refine ⟨maybe_remediate_length plan url c, ?_, ?_, ?_⟩
  · intro i
    exact maybe_remediate_getElem? plan url c i
  · intro i hij
    rw [maybe_remediate_getElem? plan url c i,
      maybe_remediate_getElem? plan url c' i, hagree i hij]
  · intro a msg hurl hauto hfail
    have hcond : (normRisk a.risk = "low" ∨ normRisk a.risk = "medium") ∧ url ≠ "" :=
      ⟨(classify_auto_iff a).mp hauto, hurl⟩
    unfold dispatchAction
    rw [if_pos hcond, hfail]

/-- The three-action plan used by the C6 witness. -/
def w6Plan : Plan :=
  ⟨"s", 1,
    [⟨"a0", [], some "low"⟩, ⟨"a1", [], some "low"⟩, ⟨"a2", [], some "high"⟩],
    ⟨none, none, []⟩⟩

/-- Executor for the C6 witness that raises only on the second call. -/
def w6c : Nat → String × Params → ExecResult :=
  fun i _ => if i = 1 then ExecResult.failure "boom" else ExecResult.success 200 "ok"

/-- Executor for the C6 witness that always succeeds. -/
def w6c' : Nat → String × Params → ExecResult :=
  fun _ _ => ExecResult.success 200 "ok"

/-- Witness for C6: on a three-action plan whose second call raises,
outcome 1 is `error` while outcomes 0 and 2 agree with the run where no
call raises. -/
theorem dispatch_failure_isolation_witness :
    (maybe_remediate w6Plan "http://r" w6c).length = 3 ∧
    (maybe_remediate w6Plan "http://r" w6c)[1]?
      = some ⟨"a1", OutcomeStatus.error, some "boom", none⟩ ∧
    (maybe_remediate w6Plan "http://r" w6c)[0]?
      = (maybe_remediate w6Plan "http://r" w6c')[0]? ∧
    (maybe_remediate w6Plan "http://r" w6c)[2]?
      = (maybe_remediate w6Plan "http://r" w6c')[2]? := by
  have hagree : ∀ i, i ≠ 1 → w6c i = w6c' i := by
    intro i hi
    funext p
    simp [w6c, w6c', hi]
  have H := dispatch_failure_isolation w6Plan "http://r" w6c w6c' 1 hagree
  refine ⟨H.1, ?_, H.2.2.1 0 (by decide), H.2.2.1 2 (by decide)⟩
  rw [H.2.1 1]
  have hfail : w6c 1 (("a1" : String), ([] : Params)) = ExecResult.failure "boom" := rfl
  have hdisp := H.2.2.2 ⟨"a1", [], some "low"⟩ "boom" (by decide) (by decide) hfail
  show Option.map _ (some (⟨"a1", [], some "low"⟩ : Action)) = _
  rw [Option.map_some', hdisp]

/-- The 301-character failure message of the C7 counterexample. -/
def longMsg : String := String.mk (List.replicate 301 'x')

/-- The one-action plan of the C7 counterexample. -/
def cexPlan : Plan :=
  ⟨"s", 1, [⟨"restart_service", [], some "low"⟩], ⟨none, none, []⟩⟩

/-- Counterexample to C7 as stated: a transport failure whose message is
301 characters long is stored in the outcome's detail untruncated, so the
detail exceeds 300 characters. -/
theorem dispatch_error_detail_not_truncated :
    ∃ o : Outcome,
      maybe_remediate cexPlan "http://remediate"
          (fun _ _ => ExecResult.failure longMsg) = [o] ∧
      o.status = OutcomeStatus.error ∧
      ∃ s, o.response = some s ∧ 300 < s.length := by
  refine ⟨⟨"restart_service", OutcomeStatus.error, some longMsg, none⟩,
    ?_, rfl, longMsg, rfl, ?_⟩
  · show dispatchFrom 0 cexPlan.actions "http://remediate"
        (fun _ _ => ExecResult.failure longMsg) = _
    unfold cexPlan dispatchFrom dispatchAction
    rw [if_pos (by decide)]
    rfl
  · show 300 < (List.replicate 301 'x').length
    rw [List.length_replicate]
    norm_num

/-- C7 amended: every `executed` outcome's detail (the echoed response
body) is truncated to at most 300 characters, while an `error` outcome
stores the raw failure message of its own call, without truncation. -/
theorem dispatch_detail_truncation_amended (plan : Plan) (url : String)
    (call : Nat → String × Params → ExecResult) (i : Nat) (o : Outcome)
    (h : (maybe_remediate plan url call)[i]? = some o) :
    (∀ code, o.status = OutcomeStatus.code code →
        ∃ s, o.response = some s ∧ s.length ≤ 300) ∧
    (o.status = OutcomeStatus.error →
        ∃ (a : Action) (msg : String), plan.actions[i]? = some a ∧
          call i (a.name, a.params) = ExecResult.failure msg ∧
          o.response = some msg) := by
  rw [maybe_remediate_getElem? plan url call i] at h
  cases ha : plan.actions[i]? with
  | none =>
      rw [ha] at h
      cases h
  | some a =>
      rw [ha] at h
      simp only [Option.map_some', Option.some_inj] at h
      subst h
      unfold dispatchAction
      split
      · cases hcall : call i (a.name, a.params) with
        | success code text =>
            constructor
            · intro c hc
              refine ⟨truncate text, rfl, ?_⟩
              show (text.data.take 300).length ≤ 300
              simp
            · intro hx
              exact nomatch hx
        | failure msg =>
            constructor
            · intro c hc
              exact nomatch hc
            · intro hx
              exact ⟨a, msg, rfl, hcall, rfl⟩
      · constructor
        · intro c hc
          exact nomatch hc
        · intro hx
          exact nomatch hx

/-- Witness for C7 amended: a successful call whose body is 301 characters
long is echoed truncated to exactly 300 characters. -/
theorem dispatch_detail_truncation_amended_witness :
    ∃ s, (⟨"restart_service", OutcomeStatus.code 200,
        some (truncate (String.mk (List.replicate 301 'y'))), none⟩ :
          Outcome).response = some s ∧ s.length ≤ 300 :=
  (dispatch_detail_truncation_amended cexPlan "http://remediate"
      (fun _ _ => ExecResult.success 200 (String.mk (List.replicate 301 'y')))
      0 _ rfl).1 200 rfl

/-- C9: when an auto-executable action's call completes with any status
code — 2xx or not — the outcome records that numeric code and the
truncated body, never the `error` status; the `error` status arises
exactly when the call raises. -/
theorem dispatch_non2xx_recorded (a : Action) (url : String)
    (call : String × Params → ExecResult)
    (hurl : url ≠ "") (hauto : classify a = Classification.AutoExecute) :
    (∀ code text, call (a.name, a.params) = ExecResult.success code text →
        dispatchAction a url call =
          { action := a.name, status := OutcomeStatus.code code,
            response := some (truncate text), reason := none } ∧
        OutcomeStatus.code code ≠ OutcomeStatus.error) ∧
    ((dispatchAction a url call).status = OutcomeStatus.error ↔
        ∃ msg, call (a.name, a.params) = ExecResult.failure msg) := by
  have hcond : (normRisk a.risk = "low" ∨ normRisk a.risk = "medium") ∧ url ≠ "" :=
    ⟨(classify_auto_iff a).mp hauto, hurl⟩
  unfold dispatchAction
  rw [if_pos hcond]
  cases hcall : call (a.name, a.params) with
  | success c t =>
      constructor
      · intro code text h
        injection h with h1 h2
        subst h1
        subst h2
        exact ⟨rfl, fun hx => nomatch hx⟩
      · constructor
        · intro hx
          exact nomatch hx
        · rintro ⟨msg, hmsg⟩
          exact nomatch hmsg
  | failure m =>
      constructor
      · intro code text h
        exact nomatch h
      · exact ⟨fun _ => ⟨m, rfl⟩, fun _ => rfl⟩

/-- Witness for C9: a 403 denial from the guard is recorded as a normal
outcome with status code 403 and the truncated body, not as `error`. -/
theorem dispatch_non2xx_recorded_witness :
    dispatchAction ⟨"scale_db", [], some "low"⟩ "http://r"
        (fun _ => ExecResult.success 403 "forbidden") =
      { action := "scale_db", status := OutcomeStatus.code 403,
        response := some (truncate "forbidden"), reason := none } :=
  ((dispatch_non2xx_recorded ⟨"scale_db", [], some "low"⟩ "http://r"
      (fun _ => ExecResult.success 403 "forbidden")
      (by decide) (by decide)).1 403 "forbidden" rfl).1

/-- C10: the agent entry point never rejects a request over its body — an
unparseable body, or any non-POST request, is treated as the empty body,
and the pipeline proceeds with the default question and the default
incident context, whose service is `unknown-service`. -/
theorem agent_entry_tolerant_body (method now : String)
    (parsed : Option AgentBody) :
    agentQuestion (agentBodyOf method none) = defaultQuestion ∧
    agentIncident (agentBodyOf method none) now = defaultIncident now ∧
    (method ≠ "POST" → agentBodyOf method parsed = emptyAgentBody) ∧
    (defaultIncident now).service_name = "unknown-service" ∧
    (defaultIncident now).region = "unknown-region" := by
  refine ⟨?_, ?_, ?_, rfl, rfl⟩
  · unfold agentBodyOf
    split <;> rfl
  · unfold agentBodyOf
    split <;> rfl
  · intro h
    unfold agentBodyOf
    rw [if_neg h]

/-- Witness for C10: a GET request with a well-formed body is still treated
as the empty body. -/
theorem agent_entry_tolerant_body_witness :
    agentBodyOf "GET" (some ⟨some "why?", none⟩) = emptyAgentBody :=
  (agent_entry_tolerant_body "GET" "2026-10-12T00:00:00"
      (some ⟨some "why?", none⟩)).2.2.1 (by decide)

end AIOps
